import Mathlib

/-!
Verification of the core of the `collapse-it` URL shortener.

The development shallowly embeds the two core modules:

* `src/extensions/database.py` — class `Database`, a thin wrapper around a
  MySQL table `short_urls(id, short_code, original_url, created_at,
  expires_at, is_active)`.  Every method catches `mysql.connector.Error`
  and converts it into a sentinel return value (`-1`, `False`, `None`);
  no exception escapes the class.  We model the table as a list of rows
  in insertion order (the order MySQL returns for these unordered
  selects over an autoincrement primary key), the autoincrement counter,
  and a single `available` flag standing for "the transport works":
  when it is false every query raises, which the Python code turns into
  the corresponding sentinel.  The `UNIQUE` constraint on `short_code`
  makes a duplicate insert raise, which `insert_url` turns into `-1`.

* `src/extensions/shortened_url.py` — `generate_unique_short_code` and
  class `ShortenedURL`.  The external library calls are abstracted as a
  `Gen` record: `hash url` stands for
  `hashlib.blake2b(url.encode(), digest_size=5).hexdigest()` (a 10
  character lowercase-hex string, deterministic in `url`), and
  `sample k` stands for the `k`-th draw of
  `random.sample(range(10), 5)` (5 distinct positions below 10).
  These facts about the library functions are the `ValidGen` predicate.
  The unbounded `while` loop is embedded with explicit fuel: `none`
  means the fuel ran out, i.e. the Python loop is still running after
  that many iterations.
-/

set_option autoImplicit false

/-- One row of the `short_urls` table (schema in `Database.ensure_tables`).
Timestamps are integers; `expires_at` is nullable. -/
structure Row where
  id : Nat
  short_code : String
  original_url : String
  created_at : Int
  expires_at : Option Int
  is_active : Bool
deriving DecidableEq

/-- The state of the store: the table rows in insertion order, the next
autoincrement id (MySQL starts at 1), and whether the connection/transport
is working (`false` makes every query raise `mysql.connector.Error`,
which each `Database` method catches). -/
structure DBState where
  rows : List Row
  nextId : Nat
  available : Bool
deriving DecidableEq

/-- The dictionary returned by `Database.fetch_url`. -/
structure UrlDetails where
  original_url : String
  is_active : Bool
  expires_at : Option Int
deriving DecidableEq

/-- `Database.insert_url(short_code, original_url, expires_at, is_active)`.
Returns the new row id on success.  On any `mysql.connector.Error` — the
`UNIQUE` constraint rejecting a duplicate `short_code`, or the transport
being down — the method logs and returns `-1`; the exception is not
re-raised and the table is unchanged.  `now` is the database clock used
for the `created_at DEFAULT CURRENT_TIMESTAMP` column. -/
def insert_url (db : DBState) (short_code original_url : String)
    (expires_at : Option Int) (is_active : Bool) (now : Int) : Int × DBState :=
  if db.available = false then (-1, db)
  else if db.rows.any (fun r => r.short_code = short_code) then (-1, db)
  else
    ((db.nextId : Int),
      { rows := db.rows ++ [⟨db.nextId, short_code, original_url, now, expires_at, is_active⟩],
        nextId := db.nextId + 1,
        available := db.available })

/-- `Database.deactivate_url(short_code)`: `UPDATE short_urls SET
is_active = FALSE WHERE short_code = %s`, returning `rowcount > 0`;
returns `False` on a transport error (caught and logged).  Under
mysql-connector's default client flags `cursor.rowcount` counts
*changed* rows, so the boolean is true exactly when some matching row
was still active. -/
def deactivate_url (db : DBState) (short_code : String) : Bool × DBState :=
  if db.available = false then (false, db)
  else
    (db.rows.any (fun r => r.short_code = short_code ∧ r.is_active = true),
      { rows := db.rows.map (fun r =>
          if r.short_code = short_code then
            ⟨r.id, r.short_code, r.original_url, r.created_at, r.expires_at, false⟩
          else r),
        nextId := db.nextId,
        available := db.available })

/-- `Database.fetch_url(short_code)`: `SELECT original_url, is_active,
expires_at FROM short_urls WHERE short_code = %s` + `fetchone`.  The query
has no condition on `is_active` or `expires_at`.  Returns `None` when no
row matches and also on a transport error (caught and logged). -/
def fetch_url (db : DBState) (short_code : String) : Option UrlDetails :=
  if db.available = false then none
  else
    (db.rows.find? (fun r => r.short_code = short_code)).map
      (fun r => ⟨r.original_url, r.is_active, r.expires_at⟩)

/-- `Database.fetch_short_code(original_url)`: `SELECT short_code FROM
short_urls WHERE original_url = %s` + `fetchone`.  No condition on
`is_active` or `expires_at`.  Returns `None` on a miss and on a
transport error. -/
def fetch_short_code (db : DBState) (original_url : String) : Option String :=
  if db.available = false then none
  else
    (db.rows.find? (fun r => r.original_url = original_url)).map
      (fun r => r.short_code)

/-- `Database.extend_url(short_code, new_expiration)`: `UPDATE short_urls
SET expires_at = %s WHERE short_code = %s`, returning `rowcount > 0`;
`False` on a transport error.  Under mysql-connector's default client
flags `cursor.rowcount` counts *changed* rows, so the boolean is true
exactly when some matching row's `expires_at` actually changes. -/
def extend_url (db : DBState) (short_code : String) (new_expiration : Int) :
    Bool × DBState :=
  if db.available = false then (false, db)
  else
    (db.rows.any (fun r =>
        r.short_code = short_code ∧ r.expires_at ≠ some new_expiration),
      { rows := db.rows.map (fun r =>
          if r.short_code = short_code then
            ⟨r.id, r.short_code, r.original_url, r.created_at, some new_expiration, r.is_active⟩
          else r),
        nextId := db.nextId,
        available := db.available })

/-- `Database.short_code_exists(short_code)` executes
`SELECT EXISTS(SELECT 1 FROM short_urls WHERE short_code = %s) AS exists;`.
`EXISTS` is a reserved word in MySQL, so the unquoted alias makes the
statement a syntax error (1064): `cursor.execute` raises a
`ProgrammingError` (a `mysql.connector.Error`) on every call —
connected or not, row present or not — and the `except` branch logs it
and returns `False`.  The method therefore returns `False` for every
store state and every argument; it never reports an existing code. -/
def short_code_exists (db : DBState) (short_code : String) : Bool :=
  false

/-- The two external library calls of `generate_unique_short_code`,
abstracted: `hash url` is
`hashlib.blake2b(url.encode(), digest_size=5).hexdigest()` and
`sample k` is the `k`-th result of `random.sample(range(10), 5)`. -/
structure Gen where
  hash : String → String
  sample : Nat → List Nat

/-- The lowercase hexadecimal alphabet produced by `hexdigest()`. -/
def hexAlphabet : List Char :=
  "0123456789abcdef".data

/-- What `hashlib` and `random` guarantee about the abstracted calls:
a 5-byte digest renders as 10 lowercase-hex characters, and
`random.sample(range(10), 5)` yields 5 distinct positions below 10. -/
structure ValidGen (g : Gen) : Prop where
  hash_len : ∀ s, (g.hash s).length = 10
  hash_hex : ∀ s, ∀ c ∈ (g.hash s).data, c ∈ hexAlphabet
  sample_nodup : ∀ k, (g.sample k).Nodup
  sample_len : ∀ k, (g.sample k).length = 5
  sample_lt : ∀ k, ∀ i ∈ g.sample k, i < 10

/-- `"".join([hash_digest[i] for i in short_code_positions])`: the
characters of the digest at the sampled positions, in sampling order.
(`random.sample(range(10), 5)` keeps every index in range, so the
out-of-range default is unreachable under `ValidGen`.) -/
def buildCode (digest : String) (positions : List Nat) : String :=
  String.mk (positions.map (fun i => digest.data.getD i 'x'))

/-- The guard of `while not short_code or database.short_code_exists(short_code)`. -/
def contCond (db : DBState) (code : String) : Bool :=
  code.isEmpty || short_code_exists db code

/-- The body of the retry loop of `generate_unique_short_code`, with
explicit fuel.  At iteration `iter` the working `url` carries `iter`
copies of the appended filler `"x"`; the candidate is built from the
digest of the current working url and the `iter`-th random draw; on a
collision (or an empty candidate) the loop appends `"x"` and retries
with a recomputed digest. -/
def genAux (g : Gen) (db : DBState) (url : String) (iter fuel : Nat) : Option String :=
  match fuel with
  | 0 => none
  | fuel + 1 =>
    let code := buildCode (g.hash url) (g.sample iter)
    if contCond db code then genAux g db (url ++ "x") (iter + 1) fuel
    else some code

/-- `generate_unique_short_code(database, url)` from
`src/extensions/shortened_url.py`, fuel-bounded. -/
def generate_unique_short_code (g : Gen) (db : DBState) (url : String)
    (fuel : Nat) : Option String :=
  genAux g db url 0 fuel

/-- The retry loop of `generate_unique_short_code` with the store's
existence check replaced by a stub (the spec's "stubbing `exists`"):
`ex iter code` is the stub's answer when the loop asks about `code` at
iteration `iter`.  The body is identical to `genAux`; `genAux` is the
instance whose stub is the real `Database.short_code_exists`. -/
def genAuxStub (g : Gen) (ex : Nat → String → Bool) (url : String)
    (iter fuel : Nat) : Option String :=
  match fuel with
  | 0 => none
  | fuel + 1 =>
    let code := buildCode (g.hash url) (g.sample iter)
    if code.isEmpty || ex iter code then genAuxStub g ex (url ++ "x") (iter + 1) fuel
    else some code

/-- A stub existence check that reports a collision exactly once: on
the first query (iteration 0) and never again. -/
def exOnce : Nat → String → Bool :=
  fun iter _ => iter == 0

/-- The working url after `k` iterations: the original url with `k`
copies of the filler character appended. -/
def workingUrl (url : String) : Nat → String
  | 0 => url
  | k + 1 => workingUrl url k ++ "x"

/-- The candidate produced at iteration `k` of the retry loop. -/
def candidate (g : Gen) (url : String) (k : Nat) : String :=
  buildCode (g.hash (workingUrl url k)) (g.sample k)

/-- `ShortenedURL.shorten(ttl)`.  `url` is `self.url` (`None` when absent);
`raise ValueError("URL is required")` when it is `None` or empty is the
`Except.error` branch.  Otherwise: look the url up; if present, extend
its expiration to `now + ttl` and return the stored code (the results of
`extend_url` and `insert_url` are discarded by the Python code); if
absent, generate a fresh code and insert.  The outer `none` means the
generation loop is still running (fuel exhausted). -/
def shorten (g : Gen) (db : DBState) (url : Option String) (ttl now : Int)
    (fuel : Nat) : Option (Except String String × DBState) :=
  match url with
  | none => some (Except.error "URL is required", db)
  | some u =>
    if u.isEmpty then some (Except.error "URL is required", db)
    else
      match fetch_short_code db u with
      | some code => some (Except.ok code, (extend_url db code (now + ttl)).2)
      | none =>
        match generate_unique_short_code g db u fuel with
        | none => none
        | some code =>
          some (Except.ok code, (insert_url db code u (some (now + ttl)) true now).2)

/-- `ShortenedURL.get_by_short_code`, a passthrough to `Database.fetch_url`. -/
def get_by_short_code (db : DBState) (short_code : String) : Option UrlDetails :=
  fetch_url db short_code

/-- The multiset of stored short codes, used to state the `UNIQUE`
constraint on `short_code`. -/
def codesOf (db : DBState) : List String :=
  db.rows.map Row.short_code

/-- Well-formed store reachable through the shortening flow: the
`UNIQUE` constraint holds and every stored code has the generated
length 5. -/
def WfDB (db : DBState) : Prop :=
  (codesOf db).Nodup ∧ ∀ r ∈ db.rows, r.short_code.length = 5

/-- The error taxonomy the specification prescribes for `insert`
(§4.1): a duplicate `short_code` is a `ConstraintViolation`, a
connectivity/query failure is a `StoreUnavailable`, and the two are
distinct errors surfaced to the caller.  This type follows the spec's
words; it is compared against the behaviour of `insert_url`. -/
inductive SpecInsertError where
  | ConstraintViolation
  | StoreUnavailable
deriving DecidableEq

/-- A concrete generator: the digest of every url is `"0123456789"` and
every random draw picks positions `0..4` in order. -/
def gA : Gen :=
  ⟨fun _ => "0123456789", fun _ => [0, 1, 2, 3, 4]⟩

/-- A concrete generator whose digest changes when the filler `"x"` is
appended to the url `"a"`: with the existence check stubbed to collide
once, it exercises exactly one retry with a changed candidate. -/
def gB : Gen :=
  ⟨fun s => if s = "a" then "0123456789" else "abcdef0123", fun _ => [0, 1, 2, 3, 4]⟩

/-- An empty, connected store. -/
def dbEmpty : DBState :=
  ⟨[], 1, true⟩

/-- A connected store already holding the code `"01234"` for the url
`"b"`: every candidate `gA` produces collides with this stored code,
but the broken existence check never reports it. -/
def dbStuck : DBState :=
  ⟨[⟨1, "01234", "b", 0, none, true⟩], 2, true⟩

/-- A store whose transport is down: every query raises, and every
`Database` method converts the exception into its sentinel. -/
def dbDown : DBState :=
  ⟨[], 1, false⟩

/-- A connected store already holding the code `"abcde"`, so inserting
`"abcde"` again violates the `UNIQUE` constraint. -/
def dbDup : DBState :=
  ⟨[⟨1, "abcde", "u1", 0, none, true⟩], 2, true⟩

/-- The store after `shorten gA dbEmpty (some "a") 5 0 1`: one fresh row. -/
def dbA1 : DBState :=
  ⟨[⟨1, "01234", "a", 0, some 5, true⟩], 2, true⟩

/-- The per-row effect of `extend_url`: only `expires_at` changes, and
only on rows whose `short_code` matches. -/
def extendRow (c : String) (e : Int) (r : Row) : Row :=
  if r.short_code = c then ⟨r.id, r.short_code, r.original_url, r.created_at, some e, r.is_active⟩
  else r

/-- The per-row effect of `deactivate_url`: only `is_active` changes,
and only on rows whose `short_code` matches. -/
def deactRow (c : String) (r : Row) : Row :=
  if r.short_code = c then ⟨r.id, r.short_code, r.original_url, r.created_at, r.expires_at, false⟩
  else r

/-- Overwrite every row's `is_active` and `expires_at` by arbitrary
functions of the row: used to state that `fetch_url` is insensitive to
the activity flag and the expiration state. -/
def setFlags (db : DBState) (fb : Row → Bool) (fe : Row → Option Int) : DBState :=
  ⟨db.rows.map (fun r => ⟨r.id, r.short_code, r.original_url, r.created_at, fe r, fb r⟩),
    db.nextId, db.available⟩

/-- Claim C6: `shorten` with an absent (`None`) or empty url fails with
the `InvalidArgument`-style error `ValueError("URL is required")`, and
the store state is returned unchanged: no row is written. -/
theorem shorten_empty_url_invalid (g : Gen) (db : DBState) (ttl now : Int)
    (fuel : Nat) :
    shorten g db none ttl now fuel = some (Except.error "URL is required", db) ∧
    shorten g db (some "") ttl now fuel = some (Except.error "URL is required", db) := by
  constructor
  · rfl
  · rfl

/-! ### Facts about the generation loop -/

theorem genAux_succ (g : Gen) (db : DBState) (url : String) (iter fuel : Nat) :
    genAux g db url iter (fuel + 1) =
      if contCond db (buildCode (g.hash url) (g.sample iter)) then
        genAux g db (url ++ "x") (iter + 1) fuel
      else some (buildCode (g.hash url) (g.sample iter)) := rfl

theorem candidate_def (g : Gen) (u : String) (k : Nat) :
    candidate g u k = buildCode (g.hash (workingUrl u k)) (g.sample k) := rfl

theorem length_buildCode (digest : String) (positions : List Nat) :
    (buildCode digest positions).length = positions.length := by
  show (positions.map _).length = positions.length
  simp

/-- If the loop guard holds for the first `k` candidates (counting from
iteration `i`) and fails for candidate `i + k`, the loop returns that
candidate as soon as the fuel exceeds `k`. -/
theorem genAux_first_free (g : Gen) (db : DBState) (u : String) :
    ∀ (k i fuel : Nat),
      (∀ j, j < k → contCond db (candidate g u (i + j)) = true) →
      contCond db (candidate g u (i + k)) = false →
      k < fuel →
      genAux g db (workingUrl u i) i fuel = some (candidate g u (i + k)) := by
  intro k
  induction k with
  | zero =>
    intro i fuel _ hfree hlt
    obtain ⟨m, rfl⟩ : ∃ m, fuel = m + 1 := ⟨fuel - 1, by omega⟩
    rw [genAux_succ]
    have h0 : contCond db (buildCode (g.hash (workingUrl u i)) (g.sample i)) = false := hfree
    rw [h0]
    simp
    rfl
  | succ k ih =>
    intro i fuel hbusy hfree hlt
    obtain ⟨m, rfl⟩ : ∃ m, fuel = m + 1 := ⟨fuel - 1, by omega⟩
    rw [genAux_succ]
    have h0 : contCond db (buildCode (g.hash (workingUrl u i)) (g.sample i)) = true := by
      have := hbusy 0 (by omega)
      simpa [candidate_def] using this
    rw [h0]
    simp only [if_true]
    have harith : i + (k + 1) = (i + 1) + k := by omega
    rw [harith]
    have hstep : (workingUrl u i ++ "x") = workingUrl u (i + 1) := rfl
    rw [hstep]
    exact ih (i + 1) m
      (fun j hj => by
        have := hbusy (j + 1) (by omega)
        have ha : i + (j + 1) = (i + 1) + j := by omega
        rwa [ha] at this)
      (by rwa [← harith]) (by omega)

/-- Specialisation to the loop entry: iteration `0`, working url `u`. -/
theorem generate_first_free (g : Gen) (db : DBState) (u : String) (k fuel : Nat)
    (hbusy : ∀ j, j < k → contCond db (candidate g u j) = true)
    (hfree : contCond db (candidate g u k) = false)
    (hlt : k < fuel) :
    generate_unique_short_code g db u fuel = some (candidate g u k) := by
  have h := genAux_first_free g db u k 0 fuel
    (fun j hj => by simpa [Nat.zero_add] using hbusy j hj)
    (by simpa [Nat.zero_add] using hfree) hlt
  simpa [generate_unique_short_code, workingUrl, Nat.zero_add] using h

/-- Any code the loop returns is the candidate of some iteration, and
the loop guard fails for it (in particular `short_code_exists` was
`false` for it at the time of the check). -/
theorem genAux_some_spec (g : Gen) (db : DBState) (u : String) :
    ∀ (fuel i : Nat) (code : String),
      genAux g db (workingUrl u i) i fuel = some code →
      ∃ k, i ≤ k ∧ code = candidate g u k ∧ contCond db code = false := by
  intro fuel
  induction fuel with
  | zero =>
    intro i code h
    exact absurd h (by simp [genAux])
  | succ fuel ih =>
    intro i code h
    rw [genAux_succ] at h
    by_cases hc : contCond db (buildCode (g.hash (workingUrl u i)) (g.sample i)) = true
    · rw [hc] at h
      simp only [if_true] at h
      have hstep : (workingUrl u i ++ "x") = workingUrl u (i + 1) := rfl
      rw [hstep] at h
      obtain ⟨k, hk, hck, hcc⟩ := ih (i + 1) code h
      exact ⟨k, by omega, hck, hcc⟩
    · have hc' : contCond db (buildCode (g.hash (workingUrl u i)) (g.sample i)) = false :=
        Bool.eq_false_iff.mpr hc
      rw [hc'] at h
      simp only [Bool.false_eq_true, if_false, Option.some.injEq] at h
      exact ⟨i, Nat.le_refl i, h.symm, by rw [h] at hc'; exact hc'⟩

theorem generate_some_spec (g : Gen) (db : DBState) (u : String) (fuel : Nat)
    (code : String) (h : generate_unique_short_code g db u fuel = some code) :
    ∃ k, code = candidate g u k ∧ contCond db code = false := by
  obtain ⟨k, -, hck, hcc⟩ := genAux_some_spec g db u fuel 0 code h
  exact ⟨k, hck, hcc⟩

/-- Under the library guarantees, every candidate is a 5-character
string over the lowercase hexadecimal alphabet. -/
theorem candidate_len_hex (g : Gen) (hg : ValidGen g) (u : String) (k : Nat) :
    (candidate g u k).length = 5 ∧ ∀ c ∈ (candidate g u k).data, c ∈ hexAlphabet := by
  constructor
  · rw [candidate_def, length_buildCode, hg.sample_len]
  · intro c hc
    have hc' : c ∈ (g.sample k).map
        (fun i => (g.hash (workingUrl u k)).data.getD i 'x') := hc
    obtain ⟨i, hi, hci⟩ := List.mem_map.mp hc'
    have hilt : i < (g.hash (workingUrl u k)).data.length := by
      have h1 := hg.sample_lt k i hi
      have h2 : (g.hash (workingUrl u k)).data.length = 10 := hg.hash_len (workingUrl u k)
      omega
    have hmem : (g.hash (workingUrl u k)).data.getD i 'x' ∈ (g.hash (workingUrl u k)).data := by
      rw [List.getD_eq_getElem?_getD, List.getElem?_eq_getElem hilt]
      exact List.getElem_mem hilt
    rw [← hci]
    exact hg.hash_hex (workingUrl u k) _ hmem

theorem validGen_gA : ValidGen gA := by
  constructor
  · intro s; rfl
  · intro s
    show ∀ c ∈ ("0123456789" : String).data, c ∈ hexAlphabet
    decide
  · intro k
    show ([0, 1, 2, 3, 4] : List Nat).Nodup
    decide
  · intro k; rfl
  · intro k
    show ∀ i ∈ ([0, 1, 2, 3, 4] : List Nat), i < 10
    decide

theorem genAuxStub_succ (g : Gen) (ex : Nat → String → Bool) (url : String)
    (iter fuel : Nat) :
    genAuxStub g ex url iter (fuel + 1) =
      if (buildCode (g.hash url) (g.sample iter)).isEmpty ||
          ex iter (buildCode (g.hash url) (g.sample iter)) then
        genAuxStub g ex (url ++ "x") (iter + 1) fuel
      else some (buildCode (g.hash url) (g.sample iter)) := rfl

/-- The real loop is the stubbed loop instantiated with the store's
(broken) existence check. -/
theorem genAux_eq_stub (g : Gen) (db : DBState) :
    ∀ (fuel : Nat) (url : String) (iter : Nat),
      genAux g db url iter fuel =
        genAuxStub g (fun _ c => short_code_exists db c) url iter fuel := by
  intro fuel
  induction fuel with
  | zero => intro url iter; rfl
  | succ fuel ih =>
    intro url iter
    rw [genAux_succ, genAuxStub_succ]
    show (if contCond db (buildCode (g.hash url) (g.sample iter)) then
        genAux g db (url ++ "x") (iter + 1) fuel
      else some (buildCode (g.hash url) (g.sample iter))) =
      (if contCond db (buildCode (g.hash url) (g.sample iter)) then
        genAuxStub g (fun _ c => short_code_exists db c) (url ++ "x") (iter + 1) fuel
      else some (buildCode (g.hash url) (g.sample iter)))
    by_cases h : contCond db (buildCode (g.hash url) (g.sample iter)) = true
    · rw [h]
      simp only [if_true]
      exact ih (url ++ "x") (iter + 1)
    · rw [Bool.eq_false_iff.mpr h]
      simp

/-- Claim C4: every code returned by `generate_unique_short_code` is the
candidate of some iteration `k`: the characters of the (abstracted)
10-character BLAKE2b hex digest of the working url — the input url with
`k` fillers appended — at the 5 distinct positions of the `k`-th random
draw, concatenated in draw order.  Under the library guarantees
(`ValidGen`) it is exactly 5 characters from the alphabet `[0-9a-f]`. -/
theorem candidate_code_shape (g : Gen) (db : DBState) (u : String) (fuel : Nat)
    (code : String) (hg : ValidGen g)
    (hres : generate_unique_short_code g db u fuel = some code) :
    ∃ k, code = buildCode (g.hash (workingUrl u k)) (g.sample k) ∧
      code.length = 5 ∧ ∀ c ∈ code.data, c ∈ hexAlphabet := by
  obtain ⟨k, hck, -⟩ := generate_some_spec g db u fuel code hres
  obtain ⟨hlen, hhex⟩ := candidate_len_hex g hg u k
  exact ⟨k, by rw [hck]; rfl, by rw [hck]; exact hlen, by rw [hck]; exact hhex⟩

theorem candidate_code_shape_witness :
    ∃ k, "01234" = buildCode (gA.hash (workingUrl "a" k)) (gA.sample k) ∧
      ("01234" : String).length = 5 ∧ ∀ c ∈ ("01234" : String).data, c ∈ hexAlphabet :=
  candidate_code_shape gA dbEmpty "a" 1 "01234" validGen_gA rfl

/-- Counterexample to claim C8: the retry loop is not unbounded with
termination contingent on a collision-free candidate occurring.
Against `dbStuck` every candidate `gA` produces (`"01234"`, at every
iteration) collides with a stored code, yet the loop returns that very
candidate after a single iteration, because `short_code_exists` — a
caught syntax error — answers `False` on every call and never reports
the collision. -/
theorem generation_bounded_counterexample :
    (∃ r ∈ dbStuck.rows, r.short_code = candidate gA "a" 0) ∧
    short_code_exists dbStuck (candidate gA "a" 0) = false ∧
    generate_unique_short_code gA dbStuck "a" 1 = some (candidate gA "a" 0) := by
  refine ⟨⟨⟨1, "01234", "b", 0, none, true⟩, ?_, ?_⟩, rfl, rfl⟩
  · decide
  · decide

/-- Claim C8 (amended): the loop imposes no maximum-iteration guard and
returns the first candidate for which the guard — emptiness or the
existence check — is false.  Because `short_code_exists` returns
`False` on every call, that is always the very first candidate: one
iteration suffices for every store state and every nonempty candidate,
so the loop is de facto bounded at a single iteration rather than
unbounded, and the collision-driven retries never occur. -/
theorem generation_first_iteration (g : Gen) (db : DBState) (u : String)
    (hne : (candidate g u 0).isEmpty = false) :
    (∀ fuel, 1 ≤ fuel →
      generate_unique_short_code g db u fuel = some (candidate g u 0)) ∧
    short_code_exists db (candidate g u 0) = false := by
  constructor
  · intro fuel hlt
    exact generate_first_free g db u 0 fuel
      (fun j hj => absurd hj (Nat.not_lt_zero j))
      (by simp [contCond, hne, short_code_exists]) (by omega)
  · rfl

theorem generation_first_iteration_witness :
    (∀ fuel, 1 ≤ fuel →
      generate_unique_short_code gA dbStuck "a" fuel = some (candidate gA "a" 0)) ∧
    short_code_exists dbStuck (candidate gA "a" 0) = false :=
  generation_first_iteration gA dbStuck "a" (by decide)

/-- Inserting a code preserves the `UNIQUE` constraint on the stored
short codes: a duplicate insert is rejected (`-1`, table unchanged) and
a fresh insert appends a code not yet present. -/
theorem insert_url_nodup (db : DBState) (sc ou : String) (ea : Option Int)
    (ia : Bool) (now : Int) (h : (codesOf db).Nodup) :
    (codesOf ((insert_url db sc ou ea ia now).2)).Nodup := by
  unfold insert_url
  by_cases hav : db.available = false
  · rw [if_pos hav]; exact h
  · rw [if_neg hav]
    by_cases hdup : db.rows.any (fun r => r.short_code = sc) = true
    · rw [if_pos hdup]; exact h
    · rw [if_neg hdup]
      have hnot : sc ∉ codesOf db := by
        intro hmem
        apply hdup
        obtain ⟨r, hr, hrc⟩ := List.mem_map.mp hmem
        exact List.any_eq_true.mpr ⟨r, hr, by simp [hrc]⟩
      simp only [codesOf] at h hnot ⊢
      rw [List.map_append]
      simp [List.nodup_append, h, hnot]

/-- Counterexample to claim C5: a candidate colliding with a stored
code does not make the existence check return true and causes no retry.
`dbStuck` stores the code `"01234"`; `gB`'s first candidate for `"a"`
is exactly `"01234"`, yet `short_code_exists` answers `False` (its
query is a caught syntax error), and the loop returns the colliding
first candidate — not the changed second candidate `"abcde"` that one
retry would have produced. -/
theorem collision_no_retry_counterexample :
    (∃ r ∈ dbStuck.rows, r.short_code = candidate gB "a" 0) ∧
    short_code_exists dbStuck (candidate gB "a" 0) = false ∧
    generate_unique_short_code gB dbStuck "a" 2 = some (candidate gB "a" 0) ∧
    candidate gB "a" 0 ≠ candidate gB "a" 1 := by
  refine ⟨⟨⟨1, "01234", "b", 0, none, true⟩, ?_, ?_⟩, rfl, rfl, ?_⟩
  · decide
  · decide
  · decide

/-- Claim C5 (amended): the retry machinery is present in the loop but
is reachable only through a stubbed existence check, because the real
`short_code_exists` returns `False` on every call and never reports a
stored collision.  With the check stubbed to report a collision exactly
once (true at iteration 0, false at iteration 1), the loop makes
exactly one retry — appending the filler `"x"`, recomputing the digest
of the mutated url, re-sampling — and returns the second candidate for
any fuel of at least 2, not an infinite loop; the real loop is the
stubbed loop instantiated with the store's check; and rows never share
a `short_code` only because `insert_url` rejects duplicates, preserving
uniqueness of the stored codes. -/
theorem collision_stub_single_retry (g : Gen) (ex : Nat → String → Bool)
    (u : String) (db : DBState)
    (h0 : ex 0 (candidate g u 0) = true)
    (h1e : (candidate g u 1).isEmpty = false)
    (h1 : ex 1 (candidate g u 1) = false) :
    (∀ m, genAuxStub g ex u 0 (m + 2) = some (candidate g u 1)) ∧
    (∀ (db2 : DBState) (fuel : Nat),
      generate_unique_short_code g db2 u fuel =
        genAuxStub g (fun _ c => short_code_exists db2 c) u 0 fuel) ∧
    ((codesOf db).Nodup → ∀ (ou : String) (ea : Option Int) (ia : Bool) (now : Int),
      (codesOf ((insert_url db (candidate g u 1) ou ea ia now).2)).Nodup) := by
  refine ⟨?_, ?_, ?_⟩
  · intro m
    rw [genAuxStub_succ]
    have hc0 : buildCode (g.hash u) (g.sample 0) = candidate g u 0 := rfl
    rw [hc0, h0]
    simp only [Bool.or_true, if_true]
    rw [genAuxStub_succ]
    have hc1 : buildCode (g.hash (u ++ "x")) (g.sample 1) = candidate g u 1 := rfl
    rw [hc1, h1e, h1]
    simp
  · intro db2 fuel
    exact genAux_eq_stub g db2 fuel u 0
  · intro hnd ou ea ia now
    exact insert_url_nodup db (candidate g u 1) ou ea ia now hnd

theorem collision_stub_single_retry_witness :
    (∀ m, genAuxStub gB exOnce "a" 0 (m + 2) = some (candidate gB "a" 1)) ∧
    (∀ (db2 : DBState) (fuel : Nat),
      generate_unique_short_code gB db2 "a" fuel =
        genAuxStub gB (fun _ c => short_code_exists db2 c) "a" 0 fuel) ∧
    ((codesOf dbStuck).Nodup → ∀ (ou : String) (ea : Option Int) (ia : Bool) (now : Int),
      (codesOf ((insert_url dbStuck (candidate gB "a" 1) ou ea ia now).2)).Nodup) :=
  collision_stub_single_retry gB exOnce "a" dbStuck (by decide) (by decide) (by decide)

/-- Counterexample to claim C1: `Database.insert_url` does not surface a
`ConstraintViolation` on a duplicate `short_code`, nor a
`StoreUnavailable` on a connectivity failure.  Both failures are caught
inside the method and mapped to the same caller-visible return value
`-1`, so no decoding of the returned value can recover the two distinct
errors the claim says are surfaced: inserting `"abcde"` into `dbDup`
(which already holds `"abcde"`) and into `dbDown` (transport down)
return the identical `-1`. -/
theorem insert_error_not_surfaced :
    ¬ ∃ decode : Int → Option SpecInsertError,
      decode (insert_url dbDup "abcde" "u2" none true 0).1 =
        some SpecInsertError.ConstraintViolation ∧
      decode (insert_url dbDown "abcde" "u2" none true 0).1 =
        some SpecInsertError.StoreUnavailable := by
  rintro ⟨decode, h1, h2⟩
  have e1 : (insert_url dbDup "abcde" "u2" none true 0).1 = -1 := rfl
  have e2 : (insert_url dbDown "abcde" "u2" none true 0).1 = -1 := rfl
  rw [e1] at h1
  rw [e2] at h2
  rw [h1] at h2
  exact SpecInsertError.noConfusion (Option.some.inj h2)

/-- Claim C1 (amended): failures of `insert_url` are reported to the
caller only through the sentinel return value `-1` — identical for a
duplicate `short_code` (the `UNIQUE` constraint violation) and for a
connectivity/query failure — with the table unchanged; the underlying
exception is caught and logged inside the Store, never propagated, and
the two failure kinds are not distinguished. -/
theorem insert_failure_sentinel (db : DBState) (sc ou : String) (ea : Option Int)
    (ia : Bool) (now : Int)
    (h : db.available = false ∨ db.rows.any (fun r => r.short_code = sc) = true) :
    insert_url db sc ou ea ia now = (-1, db) := by
  unfold insert_url
  rcases h with h | h
  · rw [if_pos h]
  · by_cases hav : db.available = false
    · rw [if_pos hav]
    · rw [if_neg hav, if_pos h]

theorem insert_failure_sentinel_witness :
    insert_url dbDup "abcde" "u2" none true 0 = (-1, dbDup) :=
  insert_failure_sentinel dbDup "abcde" "u2" none true 0 (Or.inr (by decide))

/-! ### Facts about the store operations -/

theorem find?_map_pres (f : Row → Row) (p : Row → Bool)
    (hf : ∀ r, p (f r) = p r) (rows : List Row) :
    (rows.map f).find? p = (rows.find? p).map f := by
  have hpf : p ∘ f = p := funext hf
  rw [List.find?_map, hpf]

theorem extendRow_code (c : String) (e : Int) (r : Row) :
    (extendRow c e r).short_code = r.short_code := by
  unfold extendRow; split <;> rfl

theorem deactRow_code (c : String) (r : Row) :
    (deactRow c r).short_code = r.short_code := by
  unfold deactRow; split <;> rfl

theorem deactRow_url (c : String) (r : Row) :
    (deactRow c r).original_url = r.original_url := by
  unfold deactRow; split <;> rfl

theorem deactRow_expires (c : String) (r : Row) :
    (deactRow c r).expires_at = r.expires_at := by
  unfold deactRow; split <;> rfl

theorem extend_url_eq (db : DBState) (c : String) (e : Int)
    (hav : db.available = true) :
    extend_url db c e =
      (db.rows.any (fun r => r.short_code = c ∧ r.expires_at ≠ some e),
        ⟨db.rows.map (extendRow c e), db.nextId, db.available⟩) := by
  unfold extend_url
  rw [hav, if_neg (fun h => Bool.noConfusion h)]
  rfl

theorem deactivate_url_eq (db : DBState) (c : String)
    (hav : db.available = true) :
    deactivate_url db c =
      (db.rows.any (fun r => r.short_code = c ∧ r.is_active = true),
        ⟨db.rows.map (deactRow c), db.nextId, db.available⟩) := by
  unfold deactivate_url
  rw [hav, if_neg (fun h => Bool.noConfusion h)]
  rfl

theorem insert_url_eq (db : DBState) (sc ou : String) (ea : Option Int)
    (ia : Bool) (now : Int) (hav : db.available = true)
    (hnew : db.rows.any (fun r => r.short_code = sc) = false) :
    insert_url db sc ou ea ia now =
      ((db.nextId : Int),
        ⟨db.rows ++ [⟨db.nextId, sc, ou, now, ea, ia⟩], db.nextId + 1, db.available⟩) := by
  unfold insert_url
  rw [hav, if_neg (fun h => Bool.noConfusion h), hnew,
    if_neg (fun h => Bool.noConfusion h)]

/-- With unique stored codes, the first row matching a member row's code
is that row itself. -/
theorem find?_code_of_mem (rows : List Row) (r0 : Row)
    (hnd : (rows.map Row.short_code).Nodup) (hmem : r0 ∈ rows) :
    rows.find? (fun r => r.short_code = r0.short_code) = some r0 := by
  have hsome : (rows.find? (fun r => r.short_code = r0.short_code)).isSome := by
    rw [List.find?_isSome]
    exact ⟨r0, hmem, by simp⟩
  obtain ⟨r1, hr1⟩ := Option.isSome_iff_exists.mp hsome
  have hmem1 : r1 ∈ rows := List.mem_of_find?_eq_some hr1
  have hp : r1.short_code = r0.short_code := by
    have := List.find?_some hr1
    simpa using this
  have : r1 = r0 := List.inj_on_of_nodup_map hnd hmem1 hmem hp
  rw [this] at hr1
  exact hr1

/-- Claim C7: `fetch_url` returns the stored row for a short code
regardless of its `is_active` flag and expiration state: overwriting
both fields arbitrarily still yields a hit with the same
`original_url`; and deactivating a code and then resolving it still
returns the row, now with `is_active = false` and the other fields
unchanged. -/
theorem fetch_url_ignores_policy (db : DBState) (code : String) (d : UrlDetails)
    (hav : db.available = true)
    (hfetch : fetch_url db code = some d) :
    (∀ (fb : Row → Bool) (fe : Row → Option Int), ∃ d2,
      fetch_url (setFlags db fb fe) code = some d2 ∧ d2.original_url = d.original_url) ∧
    fetch_url ((deactivate_url db code).2) code =
      some ⟨d.original_url, false, d.expires_at⟩ := by
  unfold fetch_url at hfetch
  rw [hav, if_neg (fun h => Bool.noConfusion h)] at hfetch
  obtain ⟨r0, hr0, hd⟩ := Option.map_eq_some'.mp hfetch
  have hr0c : r0.short_code = code := by
    have := List.find?_some hr0
    simpa using this
  constructor
  · intro fb fe
    refine ⟨⟨r0.original_url, fb r0, fe r0⟩, ?_, ?_⟩
    · unfold fetch_url setFlags
      simp only [hav, if_neg (fun h : (true : Bool) = false => Bool.noConfusion h)]
      rw [find?_map_pres
        (fun r => (⟨r.id, r.short_code, r.original_url, r.created_at, fe r, fb r⟩ : Row))
        (fun r => r.short_code = code) (fun r => rfl) db.rows, hr0]
      rfl
    · rw [← hd]
  · rw [deactivate_url_eq db code hav]
    unfold fetch_url
    simp only [hav, if_neg (fun h : (true : Bool) = false => Bool.noConfusion h)]
    rw [find?_map_pres (deactRow code) (fun r => r.short_code = code)
      (fun r => by simp [deactRow_code]) db.rows, hr0]
    rw [← hd]
    simp [deactRow, hr0c]

theorem fetch_url_ignores_policy_witness :
    (∀ (fb : Row → Bool) (fe : Row → Option Int), ∃ d2,
      fetch_url (setFlags dbDup fb fe) "abcde" = some d2 ∧ d2.original_url = "u1") ∧
    fetch_url ((deactivate_url dbDup "abcde").2) "abcde" = some ⟨"u1", false, none⟩ :=
  fetch_url_ignores_policy dbDup "abcde" ⟨"u1", true, none⟩ rfl rfl

/-- Counterexample to claim C2: the round trip fails on a connected,
well-formed store that already holds another url's row under the code
the generator produces.  `dbStuck` maps `"01234"` to `"b"`; shortening
the fresh url `"a"` generates exactly `"01234"` (the broken existence
check reports no collision), the insert is rejected by the `UNIQUE`
constraint and swallowed into `-1`, `shorten` still returns `"01234"`
as success — and resolving `"01234"` yields `"b"`, not `"a"`. -/
theorem shorten_roundtrip_counterexample :
    dbStuck.available = true ∧ WfDB dbStuck ∧
    shorten gA dbStuck (some "a") 5 0 1 = some (Except.ok "01234", dbStuck) ∧
    get_by_short_code dbStuck "01234" = some ⟨"b", true, none⟩ ∧
    ("b" : String) ≠ "a" := by
  refine ⟨rfl, ⟨?_, ?_⟩, rfl, rfl, ?_⟩
  · decide
  · decide
  · decide

/-- Claim C2 (amended): over a connected store whose rows satisfy the
invariants of the shortening flow (unique codes, 5-character codes),
whenever `shorten` returns a code for a non-empty url `u`, that code is
5 characters long; and resolving it (`get_by_short_code`, the
passthrough to `fetch_url`) on the resulting store returns a mapping
whose `original_url` is `u` provided that, when `u` was not already
mapped, the freshly generated code did not collide with a stored code —
a proviso the code cannot enforce, since its existence check returns
`False` on every call and performs no collision avoidance. -/
theorem shorten_roundtrip_nocollision (g : Gen) (db : DBState) (u : String)
    (ttl now : Int) (fuel : Nat) (code : String) (db2 : DBState)
    (hg : ValidGen g) (hav : db.available = true) (hwf : WfDB db)
    (hu : u.isEmpty = false)
    (hres : shorten g db (some u) ttl now fuel = some (Except.ok code, db2))
    (hfresh : fetch_short_code db u = none →
      db.rows.any (fun r => r.short_code = code) = false) :
    code.length = 5 ∧ ∃ d, get_by_short_code db2 code = some d ∧ d.original_url = u := by
  obtain ⟨hnd, hlen5⟩ := hwf
  unfold shorten at hres
  simp only [hu, Bool.false_eq_true, if_false] at hres
  split at hres
  · -- reuse branch: fetch_short_code db u = some code0
    rename_i code0 hfc
    simp only [Option.some.injEq, Prod.mk.injEq, Except.ok.injEq] at hres
    obtain ⟨hcode0, hdb2⟩ := hres
    rw [hcode0] at hfc hdb2
    unfold fetch_short_code at hfc
    rw [hav, if_neg (fun h => Bool.noConfusion h)] at hfc
    obtain ⟨r0, hr0, hr0c⟩ := Option.map_eq_some'.mp hfc
    have hmem : r0 ∈ db.rows := List.mem_of_find?_eq_some hr0
    have hr0u : r0.original_url = u := by
      have := List.find?_some hr0
      simpa using this
    constructor
    · rw [← hr0c]
      exact hlen5 r0 hmem
    · refine ⟨⟨r0.original_url, r0.is_active, some (now + ttl)⟩, ?_, hr0u⟩
      rw [← hdb2]
      unfold get_by_short_code
      rw [extend_url_eq db code (now + ttl) hav]
      unfold fetch_url
      simp only [hav, if_neg (fun h : (true : Bool) = false => Bool.noConfusion h)]
      rw [find?_map_pres (extendRow code (now + ttl)) (fun r => r.short_code = code)
        (fun r => by simp [extendRow_code]) db.rows]
      have hfind : db.rows.find? (fun r => r.short_code = code) = some r0 := by
        have := find?_code_of_mem db.rows r0 hnd hmem
        rw [hr0c] at this
        exact this
      rw [hfind]
      simp [extendRow, hr0c]
  · -- fresh branch: fetch_short_code db u = none, then generation + insert
    rename_i hfc
    split at hres
    · exact Option.noConfusion hres
    · rename_i code0 hgen
      simp only [Option.some.injEq, Prod.mk.injEq, Except.ok.injEq] at hres
      obtain ⟨hcode0, hdb2⟩ := hres
      rw [hcode0] at hgen hdb2
      obtain ⟨k, hck, -⟩ := generate_some_spec g db u fuel code hgen
      have hlen : code.length = 5 := by
        rw [hck]
        exact (candidate_len_hex g hg u k).1
      have hnew : db.rows.any (fun r => r.short_code = code) = false := hfresh hfc
      have hfc' : db.rows.find? (fun r => r.original_url = u) = none := by
        unfold fetch_short_code at hfc
        rw [hav, if_neg (fun h => Bool.noConfusion h)] at hfc
        exact Option.map_eq_none'.mp hfc
      refine ⟨hlen, ⟨u, true, some (now + ttl)⟩, ?_, rfl⟩
      rw [← hdb2]
      unfold get_by_short_code
      rw [insert_url_eq db code u (some (now + ttl)) true now hav hnew]
      unfold fetch_url
      simp only [hav, if_neg (fun h : (true : Bool) = false => Bool.noConfusion h)]
      rw [List.find?_append]
      have hnone : db.rows.find? (fun r => r.short_code = code) = none := by
        rw [List.find?_eq_none]
        intro r hr hp
        have : db.rows.any (fun r => r.short_code = code) = true :=
          List.any_eq_true.mpr ⟨r, hr, hp⟩
        rw [this] at hnew
        exact Bool.noConfusion hnew
      rw [hnone]
      simp

theorem shorten_roundtrip_nocollision_witness :
    ("01234" : String).length = 5 ∧
    ∃ d, get_by_short_code dbA1 "01234" = some d ∧ d.original_url = "a" :=
  shorten_roundtrip_nocollision gA dbEmpty "a" 5 0 1 "01234" dbA1 validGen_gA rfl
    ⟨by simp [codesOf, dbEmpty], by simp [dbEmpty]⟩ rfl rfl (fun _ => rfl)

